import Mathlib

/-!
Verification of the room-resolution fallback chain, the stream-descriptor
fetcher, the recording loop and the monitoring scheduler of the
tiktok-live-recorder repository, as a shallow embedding in Lean.

JSON documents returned by the upstream HTTP endpoints are modelled by the
inductive type `Json` below; Python dict/`json` values map to it with
Python `None` mapped to `Json.null`.  Accessors mirror the Python `dict.get`
calls of the source; on a value that is not a dict, `getD` returns the
default (the source only ever applies them to dict-shaped documents, where
the two semantics agree).  Numbers are modelled as integers (the documents
the code inspects carry integer levels and status codes).
-/

/-- JSON values, as produced by Python json.loads (None becomes null). -/
inductive Json where
  | null
  | bool (b : Bool)
  | num (n : Int)
  | str (s : String)
  | arr (xs : List Json)
  | obj (kvs : List (String × Json))

/-- First-match association-list lookup: Python dict lookup (dict keys are
unique, so first match is the match). -/
def lookupJ : List (String × Json) → String → Option Json
  | [], _ => none
  | p :: rest, k => if p.1 == k then some p.2 else lookupJ rest k

/-- Python dict insertion semantics: replace the value in place if the key
exists, append otherwise. -/
def dictInsertJ : List (String × Json) → String → Json → List (String × Json)
  | [], k, v => [(k, v)]
  | p :: rest, k, v => if p.1 == k then (k, v) :: rest else p :: dictInsertJ rest k v

/-- Python d.get(key, default) on a dict; the default on non-dict values. -/
def Json.getD (j : Json) (key : String) (d : Json) : Json :=
  match j with
  | .obj kvs =>
    match lookupJ kvs key with
    | some v => v
    | none => d
  | _ => d

/-- Python (key in d) for a dict document. -/
def Json.hasKey (j : Json) (key : String) : Bool :=
  match j with
  | .obj kvs => kvs.any (fun p => p.1 == key)
  | _ => false

/-- Python truthiness of a json value. -/
def Json.truthy : Json → Bool
  | .null => false
  | .bool b => b
  | .num n => n != 0
  | .str s => s != ""
  | .arr xs => !xs.isEmpty
  | .obj kvs => !kvs.isEmpty

/-- Python (a or b): the first operand if truthy, else the second. -/
def orJson (a b : Json) : Json := if a.truthy then a else b

/-- Python len() on the container shapes the source applies it to. -/
def Json.jlen : Json → Nat
  | .arr xs => xs.length
  | .obj kvs => kvs.length
  | .str s => s.length
  | _ => 0

/-- Python indexing xs[0] on a list document. -/
def Json.firstElem : Json → Json
  | .arr (x :: _) => x
  | _ => .null

/-- The underlying string of a string-valued json node. -/
def Json.asStr : Json → String
  | .str s => s
  | _ => ""

/-- The underlying integer of a numeric json node. -/
def Json.asInt : Json → Int
  | .num n => n
  | _ => -1

/-- The element list of a list-valued json node. -/
def Json.asArr : Json → List Json
  | .arr xs => xs
  | _ => []

/-- The key/value pairs of a dict-valued json node: Python dict.items(),
in insertion order. -/
def Json.objItems : Json → List (String × Json)
  | .obj kvs => kvs
  | _ => []

/-- Python (data.get(key) == c) for an integer constant c. -/
def statusIs (j : Json) (key : String) (c : Int) : Bool :=
  match j.getD key .null with
  | .num n => n == c
  | _ => false

/-!
Error model.  The repository snapshot does not include
utils/custom_exceptions.py and utils/enums.py; the exception classes and
error tags they define are modelled from the spec (section 7 taxonomy):
distinct, unrelated error categories.  `ApiErr.caughtByChain` is the set of
classes caught by the except clauses of get_room_id_from_user
(SigningAPIError, TikTokRecorderError).
-/

/-- Modelled from the spec: error tags of utils/enums.py TikTokError (the
file is absent from the snapshot); only the tags the verified code raises. -/
inductive TikTokErrorTag where
  | userNotCurrentlyLive
  | accountPrivate
  | liveRestriction
  | wafBlocked
deriving DecidableEq

/-- Modelled from the spec: exception classes of utils/custom_exceptions.py
(the file is absent from the snapshot), taken as unrelated categories. -/
inductive ApiErr where
  | userLiveError (e : TikTokErrorTag)
  | tikTokRecorderError
  | signingAPIError
  | liveNotFound
  | jsonDecodeError
deriving DecidableEq

/-- The exception classes caught by the fallback chain of
get_room_id_from_user: except (SigningAPIError, TikTokRecorderError). -/
def ApiErr.caughtByChain : ApiErr → Bool
  | .signingAPIError => true
  | .tikTokRecorderError => true
  | _ => false

/-!
TikTokAPI.is_room_alive (src/core/tiktok_api.py lines 115-136).
The response of the check_alive endpoint is passed in as a json document.
The returned value is the json value the Python code returns
(data["data"][0].get("alive", False)); an empty room id raises
UserLiveError(TikTokError.USER_NOT_CURRENTLY_LIVE).
-/
def is_room_alive (room_id : String) (resp : Json) : Except ApiErr Json :=
  if room_id == "" then .error (.userLiveError .userNotCurrentlyLive)
  else if !resp.hasKey ("data") || (resp.getD ("data") .null).jlen == 0 then
    .ok (.bool false)
  else
    .ok ((resp.getD ("data") .null).firstElem.getD ("alive") (.bool false))

theorem lookupJ_isSome_any (kvs : List (String × Json)) (k : String) (v : Json)
    (h : lookupJ kvs k = some v) : kvs.any (fun p => p.1 == k) = true := by
  induction kvs with
  | nil => simp [lookupJ] at h
  | cons p rest ih =>
    simp only [lookupJ] at h
    by_cases hp : (p.1 == k) = true
    · simp [List.any_cons, hp]
    · rw [if_neg (by simp [hp])] at h
      simp [List.any_cons, hp, ih h]

theorem getD_ne_default_hasKey (j : Json) (k : String) (d v : Json)
    (h : j.getD k d = v) (hne : v ≠ d) : j.hasKey k = true := by
  cases j with
  | obj kvs =>
    simp only [Json.getD] at h
    cases hl : lookupJ kvs k with
    | none => rw [hl] at h; exact absurd h.symm hne
    | some w => simpa [Json.hasKey] using lookupJ_isSome_any kvs k w hl
  | null => simp only [Json.getD] at h; exact absurd h.symm hne
  | bool b => simp only [Json.getD] at h; exact absurd h.symm hne
  | num n => simp only [Json.getD] at h; exact absurd h.symm hne
  | str s => simp only [Json.getD] at h; exact absurd h.symm hne
  | arr xs => simp only [Json.getD] at h; exact absurd h.symm hne

/-- C6: is_room_alive on a non-empty room id returns the boolean value
False when the response lacks a "data" key or carries an empty "data"
list, while an empty room id raises UserLiveError(USER_NOT_CURRENTLY_LIVE),
an error outcome distinct from the not-live result False. -/
theorem room_alive_error_c6 (room_id : String) (resp : Json) :
    (is_room_alive ("") resp = .error (.userLiveError .userNotCurrentlyLive)) ∧
    (is_room_alive ("") resp ≠ .ok (.bool false)) ∧
    (room_id ≠ "" → resp.hasKey ("data") = false →
      is_room_alive room_id resp = .ok (.bool false)) ∧
    (room_id ≠ "" → resp.getD ("data") .null = .arr [] →
      is_room_alive room_id resp = .ok (.bool false)) := by
  refine ⟨by simp [is_room_alive], by simp [is_room_alive], ?_, ?_⟩
  · intro hne hkey
    simp [is_room_alive, hne, hkey]
  · intro hne hdata
    simp [is_room_alive, hne, hdata, Json.jlen]

/-- C6 witness: the scenario of the spec, room "000" with response
(obj with data = empty list) is reported not live, and the empty room id
raises. -/
theorem room_alive_error_c6_witness :
    is_room_alive ("000") (.obj [(("data"), .arr [])]) = .ok (.bool false) ∧
    is_room_alive ("") (.obj [(("data"), .arr [])]) =
      .error (.userLiveError .userNotCurrentlyLive) := by
  have h := room_alive_error_c6 ("000") (.obj [(("data"), .arr [])])
  exact ⟨h.2.2.2 (by simp) rfl, h.1⟩

/-- C10: on any response whose "data" field is a non-empty list, the
result of is_room_alive is exactly the first element's "alive" field
(default False), whatever the later elements report. -/
theorem room_alive_first_c10 (room_id : String) (resp : Json) (x : Json)
    (rest : List Json) (hid : room_id ≠ "")
    (hdata : resp.getD ("data") .null = .arr (x :: rest)) :
    is_room_alive room_id resp = .ok (x.getD ("alive") (.bool false)) := by
  have hkey : resp.hasKey ("data") = true :=
    getD_ne_default_hasKey resp ("data") .null (.arr (x :: rest)) hdata (by simp)
  simp [is_room_alive, hid, hkey, hdata, Json.jlen, Json.firstElem]

/-- C10 witness: a two-element data list where only the first element
counts; the second element's alive value is ignored. -/
theorem room_alive_first_c10_witness :
    is_room_alive ("123")
      (.obj [(("data"), .arr [.obj [(("alive"), .bool true)],
                              .obj [(("alive"), .bool false)]])]) =
      .ok (.bool true) := by
  have h := room_alive_first_c10 ("123")
    (.obj [(("data"), .arr [.obj [(("alive"), .bool true)],
                            .obj [(("alive"), .bool false)]])])
    (.obj [(("alive"), .bool true)]) [.obj [(("alive"), .bool false)]]
    (by simp) rfl
  simpa [Json.getD, lookupJ] using h

/-!
Room-id resolution fallback chain
(TikTokAPI.get_room_id_from_user and its providers,
src/core/tiktok_api.py lines 198-417).

String scanning mirrors the Python checks on response bodies: emptiness,
leading angle bracket after strip, and substring containment.  Upstream
HTTP responses are abstracted as `Resp` values (status code, raw body,
parsed body; `json = none` models a json.loads failure).
-/

/-- Python (sub in s) on character lists. -/
def subInChars (sub : List Char) : List Char → Bool
  | [] => decide (sub = [])
  | c :: rest => List.isPrefixOf sub (c :: rest) || subInChars sub rest

/-- Python (sub in s) for strings. -/
def containsSub (s sub : String) : Bool := subInChars sub.data s.data

/-- Python s.strip().startswith(c) for a single character c. -/
def stripStartsWith (s : String) (c : Char) : Bool :=
  (s.data.dropWhile Char.isWhitespace).head? == some c

/-- Python s.lower() (character-wise). -/
def strLower (s : String) : String := ⟨s.data.map Char.toLower⟩

/-- An upstream HTTP response: status code, raw text body, and the result
of response.json() (none when parsing raises). -/
structure Resp where
  status : Int := 200
  text : String := ""
  json : Option Json := none

/-!
The persisted room-id cache (cache_room_id / get_cached_room_id,
src/core/tiktok_api.py lines 324-356).  The cache file content is an
association list from lowercased username to the cached room id (the
stored "updated" timestamp field plays no role in the verified behaviour
and is omitted); a missing cache file is the empty list.
-/

/-- TikTokAPI.cache_room_id: store room_id under the lowercased username
(read-modify-write of the whole cache file). -/
def cache_room_id (cache : List (String × Json)) (user : String) (room_id : Json) :
    List (String × Json) :=
  dictInsertJ cache (strLower user) room_id

/-- TikTokAPI.get_cached_room_id: the cached entry for the lowercased
username, none when absent. -/
def get_cached_room_id (cache : List (String × Json)) (user : String) : Option Json :=
  lookupJ cache (strLower user)

/-- One attempt of TikTokAPI._tikrec_get_room_id_signed_url (lines
205-231): reject empty, HTML/blocked and unparsable bodies, then require a
truthy signed_path. -/
def tikrecSignAttempt (resp : Resp) : Except ApiErr Json :=
  if resp.text == "" then .error .signingAPIError
  else if stripStartsWith resp.text '<' || containsSub resp.text ("Please wait")
       || containsSub resp.text ("<!DOCTYPE") then .error .signingAPIError
  else
    match resp.json with
    | none => .error .signingAPIError
    | some data =>
      let signedPath := data.getD ("signed_path") .null
      if !signedPath.truthy then .error .tikTokRecorderError
      else .ok (.str ("https://www.tiktok.com" ++ signedPath.asStr))

/-- The retry loop of _tikrec_get_room_id_signed_url: every failure of an
attempt is caught and retried; exhausting the budget raises
SigningAPIError.  `attempt` is the index of the next attempt, `remaining`
the attempts left of max_retries = 10. -/
def tikrecSignLoop (resps : Nat → Resp) : Nat → Nat → Except ApiErr Json
  | _, 0 => .error .signingAPIError
  | attempt, remaining + 1 =>
    match tikrecSignAttempt (resps attempt) with
    | .ok url => .ok url
    | .error _ => tikrecSignLoop resps (attempt + 1) remaining

/-- TikTokAPI._tikrec_get_room_id_signed_url with its default
max_retries = 10. -/
def tikrec_get_room_id_signed_url (resps : Nat → Resp) : Except ApiErr Json :=
  tikrecSignLoop resps 0 10

/-- TikTokAPI._tikrec_get_room_id (lines 251-271): obtain the signed url,
dereference it (response `dataResp`), reject blocked bodies, and extract
(data.get("data") or \x7b\x7d).get("user", \x7b\x7d).get("roomId"). -/
def tikrec_get_room_id (signResps : Nat → Resp) (dataResp : Resp) :
    Except ApiErr Json :=
  match tikrec_get_room_id_signed_url signResps with
  | .error e => .error e
  | .ok _ =>
    if dataResp.text == "" || containsSub dataResp.text ("Please wait") then
      .error (.userLiveError .wafBlocked)
    else if stripStartsWith dataResp.text '<'
         || containsSub dataResp.text ("<!DOCTYPE") then .error .signingAPIError
    else
      match dataResp.json with
      | none => .error .signingAPIError
      | some data =>
        .ok (((orJson (data.getD ("data") .null) (.obj [])).getD ("user")
          (.obj [])).getD ("roomId") .null)

/-- One attempt of TikTokAPI._euler_get_room_id (lines 280-307): require
status 200 and a non-empty, non-HTML, parsable body; a missing or falsy
room id is a valid "not live" result (None). -/
def eulerAttempt (resp : Resp) : Except ApiErr Json :=
  if resp.status != 200 then .error .signingAPIError
  else if resp.text == "" then .error .signingAPIError
  else if stripStartsWith resp.text '<'
       || containsSub resp.text ("<!DOCTYPE") then .error .signingAPIError
  else
    match resp.json with
    | none => .error .jsonDecodeError
    | some data =>
      let roomId := ((data.getD ("data") (.obj [])).getD ("room_info")
        (.obj [])).getD ("id") .null
      if roomId.truthy then .ok roomId else .ok .null

/-- The retry loop of _euler_get_room_id: every failing attempt is caught
and retried; exhausting the budget raises SigningAPIError. -/
def eulerLoop (resps : Nat → Resp) : Nat → Nat → Except ApiErr Json
  | _, 0 => .error .signingAPIError
  | attempt, remaining + 1 =>
    match eulerAttempt (resps attempt) with
    | .ok rid => .ok rid
    | .error _ => eulerLoop resps (attempt + 1) remaining

/-- TikTokAPI._euler_get_room_id with its default max_retries = 10. -/
def euler_get_room_id (resps : Nat → Resp) : Except ApiErr Json :=
  eulerLoop resps 0 10

/-- The interactions of one get_room_id_from_user call, in order. -/
inductive ResolveAction where
  | callTikrec
  | callEuler
  | readCache
  | writeCache
deriving DecidableEq

/-- TikTokAPI.get_room_id_from_user (lines 379-417), parametrised by the
outcomes p1 of _tikrec_get_room_id and p2 of _euler_get_room_id.  Returns
the result, the final cache content, and the trace of interactions:
provider 1 first; provider 2 only when provider 1 raised one of the caught
classes (SigningAPIError, TikTokRecorderError); the cache only when both
raised; a truthy room id is written back to the cache before returning; a
falsy room id (user not live) is returned as-is; when both providers
raised and the cache has nothing truthy, SigningAPIError is raised. -/
def get_room_id_from_user (p1 p2 : Except ApiErr Json)
    (cache : List (String × Json)) (user : String) :
    Except ApiErr Json × List (String × Json) × List ResolveAction :=
  match p1 with
  | .ok rid =>
    if rid.truthy then
      (.ok rid, cache_room_id cache user rid,
        [.callTikrec, .writeCache])
    else (.ok rid, cache, [.callTikrec])
  | .error e1 =>
    if e1.caughtByChain then
      match p2 with
      | .ok rid =>
        if rid.truthy then
          (.ok rid, cache_room_id cache user rid,
            [.callTikrec, .callEuler, .writeCache])
        else (.ok rid, cache, [.callTikrec, .callEuler])
      | .error e2 =>
        if e2.caughtByChain then
          match get_cached_room_id cache user with
          | some c =>
            if c.truthy then (.ok c, cache, [.callTikrec, .callEuler, .readCache])
            else (.error .signingAPIError, cache,
              [.callTikrec, .callEuler, .readCache])
          | none =>
            (.error .signingAPIError, cache,
              [.callTikrec, .callEuler, .readCache])
        else (.error e2, cache, [.callTikrec, .callEuler])
    else (.error e1, cache, [.callTikrec])

/-- The full resolution chain: get_room_id_from_user applied to the two
provider methods, with the upstream responses as parameters. -/
def resolve_room_id (signResps : Nat → Resp) (dataResp : Resp)
    (eulerResps : Nat → Resp) (cache : List (String × Json)) (user : String) :
    Except ApiErr Json × List (String × Json) × List ResolveAction :=
  get_room_id_from_user (tikrec_get_room_id signResps dataResp)
    (euler_get_room_id eulerResps) cache user

theorem lookupJ_dictInsertJ (kvs : List (String × Json)) (k : String) (v : Json) :
    lookupJ (dictInsertJ kvs k v) k = some v := by
  induction kvs with
  | nil => simp [dictInsertJ, lookupJ]
  | cons p rest ih =>
    by_cases hp : (p.1 == k) = true
    · simp [dictInsertJ, hp, lookupJ]
    · simp [dictInsertJ, hp, lookupJ, ih]

/-- C1: for every username, the resolution chain tries provider 1 first;
it tries provider 2 exactly when provider 1 raised one of the caught
signing/recorder errors; it reads the cache exactly when both providers
raised such errors; a successful provider answer that is falsy ("not
live") short-circuits: the chain returns it at once without any later
fallback and without touching the cache; and when both providers raised
and the cache has no entry for the user, the chain fails with
SigningAPIError. -/
theorem resolve_chain_order_c1 (p1 p2 : Except ApiErr Json)
    (cache : List (String × Json)) (user : String) :
    ((get_room_id_from_user p1 p2 cache user).2.2.head? =
        some ResolveAction.callTikrec) ∧
    ((ResolveAction.callEuler ∈ (get_room_id_from_user p1 p2 cache user).2.2) ↔
        ∃ e1, p1 = .error e1 ∧ e1.caughtByChain = true) ∧
    ((ResolveAction.readCache ∈ (get_room_id_from_user p1 p2 cache user).2.2) ↔
        ∃ e1 e2, p1 = .error e1 ∧ e1.caughtByChain = true ∧
          p2 = .error e2 ∧ e2.caughtByChain = true) ∧
    (∀ rid, p1 = .ok rid → rid.truthy = false →
        get_room_id_from_user p1 p2 cache user =
          (.ok rid, cache, [ResolveAction.callTikrec])) ∧
    (∀ e1 rid, p1 = .error e1 → e1.caughtByChain = true →
        p2 = .ok rid → rid.truthy = false →
        get_room_id_from_user p1 p2 cache user =
          (.ok rid, cache, [ResolveAction.callTikrec, ResolveAction.callEuler])) ∧
    (∀ e1 e2, p1 = .error e1 → e1.caughtByChain = true →
        p2 = .error e2 → e2.caughtByChain = true →
        get_cached_room_id cache user = none →
        (get_room_id_from_user p1 p2 cache user).1 = .error .signingAPIError) := by
  refine ⟨?_, ?_, ?_, ?_, ?_, ?_⟩
  · cases p1 with
    | ok rid =>
      by_cases h : rid.truthy = true <;> simp [get_room_id_from_user, h]
    | error e1 =>
      by_cases h1 : e1.caughtByChain = true
      · cases p2 with
        | ok rid =>
          by_cases h : rid.truthy = true <;> simp [get_room_id_from_user, h1, h]
        | error e2 =>
          by_cases h2 : e2.caughtByChain = true
          · cases hc : get_cached_room_id cache user with
            | none => simp [get_room_id_from_user, h1, h2, hc]
            | some c =>
              by_cases h : c.truthy = true <;>
                simp [get_room_id_from_user, h1, h2, hc, h]
          · simp [get_room_id_from_user, h1, h2]
      · simp [get_room_id_from_user, h1]
  · cases p1 with
    | ok rid =>
      by_cases h : rid.truthy = true <;> simp [get_room_id_from_user, h]
    | error e1 =>
      by_cases h1 : e1.caughtByChain = true
      · cases p2 with
        | ok rid =>
          by_cases h : rid.truthy = true <;> simp [get_room_id_from_user, h1, h]
        | error e2 =>
          by_cases h2 : e2.caughtByChain = true
          · cases hc : get_cached_room_id cache user with
            | none => simp [get_room_id_from_user, h1, h2, hc]
            | some c =>
              by_cases h : c.truthy = true <;>
                simp [get_room_id_from_user, h1, h2, hc, h]
          · simp [get_room_id_from_user, h1, h2]
      · simp [get_room_id_from_user, h1]
  · cases p1 with
    | ok rid =>
      by_cases h : rid.truthy = true <;> simp [get_room_id_from_user, h]
    | error e1 =>
      by_cases h1 : e1.caughtByChain = true
      · cases p2 with
        | ok rid =>
          by_cases h : rid.truthy = true <;> simp [get_room_id_from_user, h1, h]
        | error e2 =>
          by_cases h2 : e2.caughtByChain = true
          · cases hc : get_cached_room_id cache user with
            | none => simp [get_room_id_from_user, h1, h2, hc]
            | some c =>
              by_cases h : c.truthy = true <;>
                simp [get_room_id_from_user, h1, h2, hc, h]
          · simp [get_room_id_from_user, h1, h2]
      · simp [get_room_id_from_user, h1]
  · intro rid h1 hf
    subst h1
    simp [get_room_id_from_user, hf]
  · intro e1 rid h1 hc1 h2 hf
    subst h1; subst h2
    simp [get_room_id_from_user, hc1, hf]
  · intro e1 e2 h1 hc1 h2 hc2 hmiss
    subst h1; subst h2
    simp [get_room_id_from_user, hc1, hc2, hmiss]

/-- A signing provider that answers an HTML block page on every attempt. -/
def htmlSignResps : Nat → Resp := fun _ =>
  { status := 200, text := "<!DOCTYPE html>", json := none }

/-- A secondary provider whose answer parses to
data.room_info with no id field: a valid "not live" answer. -/
def eulerNotLiveResps : Nat → Resp := fun _ =>
  { status := 200,
    text := "\x7b\x22data\x22:\x7b\x22room_info\x22:\x7b\x7d\x7d\x7d",
    json := some (.obj [(("data"), .obj [(("room_info"), .obj [])])]) }

/-- C1 witness: the scenario of the spec.  Provider 1 receives HTML on all
10 attempts and raises SigningAPIError; provider 2 answers with an empty
room_info, so the chain returns None (null) and the cache is untouched. -/
theorem resolve_chain_order_c1_witness :
    resolve_room_id htmlSignResps {} eulerNotLiveResps [] ("alice") =
      (.ok .null, [], [ResolveAction.callTikrec, ResolveAction.callEuler]) := by
  have h := resolve_chain_order_c1 (tikrec_get_room_id htmlSignResps {})
    (euler_get_room_id eulerNotLiveResps) [] ("alice")
  exact h.2.2.2.2.1 ApiErr.signingAPIError Json.null rfl rfl rfl rfl

/-- C5: a successful (truthy) resolution through provider 1 or provider 2
writes the room id into the cache under the lowercased username before
returning, and a "not live" (falsy) answer from either provider leaves
the cache exactly as it was; a cache write happens in no other case. -/
theorem cache_write_c5 (p1 p2 : Except ApiErr Json)
    (cache : List (String × Json)) (user : String) :
    (∀ rid, p1 = .ok rid → rid.truthy = true →
        (get_room_id_from_user p1 p2 cache user).2.1 = cache_room_id cache user rid ∧
        lookupJ (get_room_id_from_user p1 p2 cache user).2.1 (strLower user) =
          some rid ∧
        (get_room_id_from_user p1 p2 cache user).1 = .ok rid) ∧
    (∀ rid, p1 = .ok rid → rid.truthy = false →
        (get_room_id_from_user p1 p2 cache user).2.1 = cache) ∧
    (∀ e1 rid, p1 = .error e1 → e1.caughtByChain = true → p2 = .ok rid →
        rid.truthy = true →
        (get_room_id_from_user p1 p2 cache user).2.1 = cache_room_id cache user rid ∧
        lookupJ (get_room_id_from_user p1 p2 cache user).2.1 (strLower user) =
          some rid ∧
        (get_room_id_from_user p1 p2 cache user).1 = .ok rid) ∧
    (∀ e1 rid, p1 = .error e1 → e1.caughtByChain = true → p2 = .ok rid →
        rid.truthy = false →
        (get_room_id_from_user p1 p2 cache user).2.1 = cache) ∧
    ((ResolveAction.writeCache ∈ (get_room_id_from_user p1 p2 cache user).2.2) ↔
        ((∃ rid, p1 = .ok rid ∧ rid.truthy = true) ∨
         (∃ e1 rid, p1 = .error e1 ∧ e1.caughtByChain = true ∧
            p2 = .ok rid ∧ rid.truthy = true))) ∧
    ((ResolveAction.writeCache ∉ (get_room_id_from_user p1 p2 cache user).2.2) →
        (get_room_id_from_user p1 p2 cache user).2.1 = cache) := by
  refine ⟨?_, ?_, ?_, ?_, ?_, ?_⟩
  · intro rid h1 ht
    subst h1
    simp [get_room_id_from_user, ht, cache_room_id, lookupJ_dictInsertJ]
  · intro rid h1 hf
    subst h1
    simp [get_room_id_from_user, hf]
  · intro e1 rid h1 hc1 h2 ht
    subst h1; subst h2
    simp [get_room_id_from_user, hc1, ht, cache_room_id, lookupJ_dictInsertJ]
  · intro e1 rid h1 hc1 h2 hf
    subst h1; subst h2
    simp [get_room_id_from_user, hc1, hf]
  · cases p1 with
    | ok rid =>
      by_cases h : rid.truthy = true <;> simp [get_room_id_from_user, h]
    | error e1 =>
      by_cases h1 : e1.caughtByChain = true
      · cases p2 with
        | ok rid =>
          by_cases h : rid.truthy = true <;> simp [get_room_id_from_user, h1, h]
        | error e2 =>
          by_cases h2 : e2.caughtByChain = true
          · cases hc : get_cached_room_id cache user with
            | none => simp [get_room_id_from_user, h1, h2, hc]
            | some c =>
              by_cases h : c.truthy = true <;>
                simp [get_room_id_from_user, h1, h2, hc, h]
          · simp [get_room_id_from_user, h1, h2]
      · simp [get_room_id_from_user, h1]
  · cases p1 with
    | ok rid =>
      by_cases h : rid.truthy = true <;> simp [get_room_id_from_user, h]
    | error e1 =>
      by_cases h1 : e1.caughtByChain = true
      · cases p2 with
        | ok rid =>
          by_cases h : rid.truthy = true <;> simp [get_room_id_from_user, h1, h]
        | error e2 =>
          by_cases h2 : e2.caughtByChain = true
          · cases hc : get_cached_room_id cache user with
            | none => simp [get_room_id_from_user, h1, h2, hc]
            | some c =>
              by_cases h : c.truthy = true <;>
                simp [get_room_id_from_user, h1, h2, hc, h]
          · simp [get_room_id_from_user, h1, h2]
      · simp [get_room_id_from_user, h1]

/-- C5 witness: a truthy provider-1 answer is cached under the lowercased
username and returned; a falsy one leaves the cache empty. -/
theorem cache_write_c5_witness :
    (get_room_id_from_user (.ok (.str ("98765"))) (.error .signingAPIError)
        [] ("Alice")).2.1 = [(("alice"), .str ("98765"))] ∧
    lookupJ (get_room_id_from_user (.ok (.str ("98765")))
        (.error .signingAPIError) [] ("Alice")).2.1 (strLower ("Alice")) =
      some (.str ("98765")) ∧
    (get_room_id_from_user (.ok .null) (.error .signingAPIError)
        [] ("Alice")).2.1 = [] := by
  have h1 := (cache_write_c5 (.ok (.str ("98765"))) (.error .signingAPIError)
    [] ("Alice")).1 (.str ("98765")) rfl rfl
  have h2 := (cache_write_c5 (.ok .null) (.error .signingAPIError)
    [] ("Alice")).2.1 .null rfl rfl
  exact ⟨by rw [h1.1]; rfl, h1.2.1, h2⟩

/-!
TikTokAPI.get_live_url (src/core/tiktok_api.py lines 485-569).
The room-info document is a parameter `data`; json.loads for the embedded
stream_data string is abstracted as the parameter `parse` (none models a
parse failure, which the Python code would propagate as an exception).
-/

/-- The level map built from the quality table:
\x7bq["sdk_key"]: q["level"] for q in qualities\x7d (later duplicates
overwrite earlier ones, as in a Python dict comprehension). -/
def buildLevelMap (qs : List Json) : List (String × Int) :=
  qs.foldl (fun m q =>
    dictInsertInt m ((q.getD ("sdk_key") .null).asStr)
      ((q.getD ("level") .null).asInt)) []
where
  dictInsertInt : List (String × Int) → String → Int → List (String × Int)
    | [], k, v => [(k, v)]
    | p :: rest, k, v =>
      if p.1 == k then (k, v) :: rest else p :: dictInsertInt rest k v

/-- level_map.get(sdk_key, -1). -/
def levelGet (lm : List (String × Int)) (key : String) : Int :=
  match lm.find? (fun p => p.1 == key) with
  | some p => p.2
  | none => -1

/-- The running best entry of the selection loop of get_live_url:
best_level, best_flv, best_hls. -/
structure Pick where
  level : Int
  flv : Json
  hls : Json

/-- The candidate a quality-table entry contributes: its mapped level and
entry.get("main", \x7b\x7d).get("flv") / .get("hls"). -/
def pickEntry (lm : List (String × Int)) (e : String × Json) : Pick :=
  { level := levelGet lm e.1,
    flv := (e.2.getD ("main") (.obj [])).getD ("flv") .null,
    hls := (e.2.getD ("main") (.obj [])).getD ("hls") .null }

/-- One step of the selection loop: take the entry exactly when its mapped
level is strictly greater than the best seen so far (ties keep the earlier
entry). -/
def selectStep (lm : List (String × Int)) (acc : Pick) (e : String × Json) : Pick :=
  if acc.level < levelGet lm e.1 then pickEntry lm e else acc

/-- The selection loop of get_live_url (lines 546-555) over the sdk_data
items in iteration (= insertion) order, starting from best_level = -1. -/
def selectBest (lm : List (String × Int)) (sdkData : List (String × Json)) : Pick :=
  sdkData.foldl (selectStep lm) ⟨-1, .null, .null⟩

/-- stream_url of the room-info document. -/
def streamUrlOf (data : Json) : Json :=
  (data.getD ("data") (.obj [])).getD ("stream_url") (.obj [])

/-- The embedded sdk stream_data string of the room-info document. -/
def sdkDataStrOf (data : Json) : Json :=
  ((streamUrlOf data |>.getD ("live_core_sdk_data") (.obj [])).getD
    ("pull_data") (.obj [])).getD ("stream_data") .null

/-- The quality table of the room-info document (default empty list). -/
def qualitiesOf (data : Json) : Json :=
  (((streamUrlOf data |>.getD ("live_core_sdk_data") (.obj [])).getD
    ("pull_data") (.obj [])).getD ("options") (.obj [])).getD
    ("qualities") (.arr [])

/-- The best entry the selection loop picks for a parsed stream_data
document. -/
def bestOf (parsed data : Json) : Pick :=
  selectBest (buildLevelMap (qualitiesOf data).asArr)
    ((parsed.getD ("data") (.obj [])).objItems)

/-- The legacy m3u8 fallback chain of get_live_url (hls_pull_url_map in
descending preference, then hls_pull_url). -/
def legacyM3u8 (streamUrl : Json) : Json :=
  orJson ((streamUrl.getD ("hls_pull_url_map") (.obj [])).getD ("FULL_HD1") .null)
  (orJson ((streamUrl.getD ("hls_pull_url_map") (.obj [])).getD ("HD1") .null)
  (orJson ((streamUrl.getD ("hls_pull_url_map") (.obj [])).getD ("SD2") .null)
  (orJson ((streamUrl.getD ("hls_pull_url_map") (.obj [])).getD ("SD1") .null)
    (streamUrl.getD ("hls_pull_url") (.str "")))))

/-- The legacy flv fallback chain of get_live_url (flv_pull_url in
descending preference, then rtmp_pull_url). -/
def legacyFlv (streamUrl : Json) : Json :=
  orJson ((streamUrl.getD ("flv_pull_url") (.obj [])).getD ("FULL_HD1") .null)
  (orJson ((streamUrl.getD ("flv_pull_url") (.obj [])).getD ("HD1") .null)
  (orJson ((streamUrl.getD ("flv_pull_url") (.obj [])).getD ("SD2") .null)
  (orJson ((streamUrl.getD ("flv_pull_url") (.obj [])).getD ("SD1") .null)
    (streamUrl.getD ("rtmp_pull_url") (.str "")))))

/-- TikTokAPI.get_live_url: private-account check, legacy fallback when no
sdk stream_data is present, otherwise quality-table selection with the
LIVE_RESTRICTION check (platform status code 4003110) and the
prefer_m3u8 / flv / hls return order.  The returned json value is the url
the Python code returns (null models None). -/
def get_live_url (parse : String → Option Json) (data : Json)
    (prefer_m3u8 : Bool) : Except ApiErr Json :=
  if data.hasKey ("This account is private") then
    .error (.userLiveError .accountPrivate)
  else
    let streamUrl := streamUrlOf data
    if !(sdkDataStrOf data).truthy then
      if prefer_m3u8 then
        let m := legacyM3u8 streamUrl
        if m.truthy then .ok m else .ok (legacyFlv streamUrl)
      else .ok (legacyFlv streamUrl)
    else
      match parse (sdkDataStrOf data).asStr with
      | none => .error .jsonDecodeError
      | some parsed =>
        if !(qualitiesOf data).truthy then .ok .null
        else
          let best := bestOf parsed data
          if !best.flv.truthy && !best.hls.truthy
             && statusIs data ("status_code") 4003110 then
            .error (.userLiveError .liveRestriction)
          else if prefer_m3u8 && best.hls.truthy then .ok best.hls
          else if best.flv.truthy then .ok best.flv
          else .ok best.hls

/-- The running maximum of the mapped levels of the entries, started at b
(the loop starts at best_level = -1). -/
def maxLevelFrom (lm : List (String × Int)) (b : Int)
    (sd : List (String × Json)) : Int :=
  sd.foldl (fun b e => max b (levelGet lm e.1)) b

theorem maxLevelFrom_cons (lm : List (String × Int)) (b : Int)
    (e : String × Json) (sd : List (String × Json)) :
    maxLevelFrom lm b (e :: sd) =
      maxLevelFrom lm (max b (levelGet lm e.1)) sd := rfl

theorem le_maxLevelFrom (lm : List (String × Int)) (b : Int)
    (sd : List (String × Json)) : b ≤ maxLevelFrom lm b sd := by
  induction sd generalizing b with
  | nil => simp [maxLevelFrom]
  | cons e rest ih =>
    rw [maxLevelFrom_cons]
    exact le_trans (le_max_left _ _) (ih _)

theorem mem_le_maxLevelFrom (lm : List (String × Int)) (e : String × Json) :
    ∀ (sd : List (String × Json)) (b : Int), e ∈ sd →
      levelGet lm e.1 ≤ maxLevelFrom lm b sd := by
  intro sd
  induction sd with
  | nil => intro b he; cases he
  | cons x rest ih =>
    intro b he
    rw [maxLevelFrom_cons]
    rcases List.mem_cons.mp he with h | h
    · subst h
      exact le_trans (le_max_right _ _) (le_maxLevelFrom _ _ _)
    · exact ih _ h

theorem findq_cons_pos {α : Type} (p : α → Bool) (a : α) (l : List α)
    (h : p a = true) : List.find? p (a :: l) = some a := by
  simp [List.find?, h]

theorem findq_cons_neg {α : Type} (p : α → Bool) (a : α) (l : List α)
    (h : p a = false) : List.find? p (a :: l) = List.find? p l := by
  simp [List.find?, h]

theorem selectFold_level (lm : List (String × Int)) (sd : List (String × Json)) :
    ∀ acc : Pick, (List.foldl (selectStep lm) acc sd).level =
      maxLevelFrom lm acc.level sd := by
  induction sd with
  | nil => intro acc; simp [maxLevelFrom]
  | cons e rest ih =>
    intro acc
    rw [List.foldl_cons, maxLevelFrom_cons, ih]
    congr 1
    by_cases h : acc.level < levelGet lm e.1
    · simp [selectStep, h, pickEntry, max_eq_right h.le]
    · simp [selectStep, h, max_eq_left (not_lt.mp h)]

theorem selectFold_const (lm : List (String × Int)) (sd : List (String × Json)) :
    ∀ acc : Pick, (∀ e ∈ sd, levelGet lm e.1 ≤ acc.level) →
      List.foldl (selectStep lm) acc sd = acc := by
  induction sd with
  | nil => intro acc _; rfl
  | cons e rest ih =>
    intro acc h
    rw [List.foldl_cons]
    have he : levelGet lm e.1 ≤ acc.level := h e (List.mem_cons_self _ _)
    have hstep : selectStep lm acc e = acc := if_neg (not_lt.mpr he)
    rw [hstep]
    exact ih acc (fun x hx => h x (List.mem_cons_of_mem _ hx))

theorem selectFold_find (lm : List (String × Int)) (sd : List (String × Json)) :
    ∀ acc : Pick, acc.level < maxLevelFrom lm acc.level sd →
    ∃ e, sd.find? (fun x => levelGet lm x.1 == maxLevelFrom lm acc.level sd) =
        some e ∧
      List.foldl (selectStep lm) acc sd = pickEntry lm e := by
  induction sd with
  | nil =>
    intro acc h
    simp [maxLevelFrom] at h
  | cons x rest ih =>
    intro acc h
    by_cases hx : acc.level < levelGet lm x.1
    · have hM : maxLevelFrom lm acc.level (x :: rest) =
          maxLevelFrom lm (levelGet lm x.1) rest := by
        rw [maxLevelFrom_cons, max_eq_right hx.le]
      have hstep : selectStep lm acc x = pickEntry lm x := if_pos hx
      by_cases heq : levelGet lm x.1 = maxLevelFrom lm acc.level (x :: rest)
      · refine ⟨x, findq_cons_pos
          (fun y => levelGet lm y.1 == maxLevelFrom lm acc.level (x :: rest))
          x rest (by simpa using heq), ?_⟩
        rw [List.foldl_cons, hstep]
        apply selectFold_const
        intro e he
        have h1 := mem_le_maxLevelFrom lm e rest (levelGet lm x.1) he
        rw [← hM, ← heq] at h1
        exact h1
      · have hlt : levelGet lm x.1 < maxLevelFrom lm acc.level (x :: rest) := by
          have h2 := le_maxLevelFrom lm (levelGet lm x.1) rest
          rw [← hM] at h2
          exact lt_of_le_of_ne h2 heq
        have hpl : (pickEntry lm x).level = levelGet lm x.1 := rfl
        have hcond : (pickEntry lm x).level <
            maxLevelFrom lm (pickEntry lm x).level rest := by
          rw [hpl, ← hM]
          exact hlt
        obtain ⟨e, hfind, hfold⟩ := ih (pickEntry lm x) hcond
        refine ⟨e, ?_, ?_⟩
        · rw [findq_cons_neg
            (fun y => levelGet lm y.1 == maxLevelFrom lm acc.level (x :: rest))
            x rest (by simpa using heq), hM]
          exact hfind
        · rw [List.foldl_cons, hstep]
          exact hfold
    · have hle : levelGet lm x.1 ≤ acc.level := not_lt.mp hx
      have hM : maxLevelFrom lm acc.level (x :: rest) =
          maxLevelFrom lm acc.level rest := by
        rw [maxLevelFrom_cons, max_eq_left hle]
      have hstep : selectStep lm acc x = acc := if_neg hx
      rw [hM] at h
      obtain ⟨e, hfind, hfold⟩ := ih acc h
      refine ⟨e, ?_, ?_⟩
      · have hpred :
            (levelGet lm x.1 == maxLevelFrom lm acc.level (x :: rest)) = false := by
          rw [hM]
          simp only [beq_eq_false_iff_ne, ne_eq]
          intro hq
          omega
        rw [findq_cons_neg
          (fun y => levelGet lm y.1 == maxLevelFrom lm acc.level (x :: rest))
          x rest hpred, hM]
        exact hfind
      · rw [List.foldl_cons, hstep]
        exact hfold

theorem ok_chain_ne_error (p f : Bool) (a b c : Json) (e : ApiErr) :
    ¬((if p then (Except.ok a : Except ApiErr Json)
       else if f then .ok b else .ok c) = .error e) := by
  by_cases hp : p = true <;> by_cases hf : f = true <;> simp [hp, hf]

theorem get_live_url_sdk (parse : String → Option Json) (data : Json)
    (prefer_m3u8 : Bool) (s : String) (parsed : Json)
    (hpriv : data.hasKey ("This account is private") = false)
    (hs : sdkDataStrOf data = .str s) (hs2 : s ≠ "")
    (hp : parse s = some parsed)
    (hq : (qualitiesOf data).truthy = true) :
    get_live_url parse data prefer_m3u8 =
      (if (!(bestOf parsed data).flv.truthy && !(bestOf parsed data).hls.truthy
          && statusIs data ("status_code") 4003110) then
        .error (.userLiveError .liveRestriction)
      else if prefer_m3u8 && (bestOf parsed data).hls.truthy then
        .ok (bestOf parsed data).hls
      else if (bestOf parsed data).flv.truthy then .ok (bestOf parsed data).flv
      else .ok (bestOf parsed data).hls) := by
  have hstr : (Json.str s).truthy = true := by
    simpa [Json.truthy] using hs2
  simp only [get_live_url, hpriv, Bool.false_eq_true, if_false, hs, hstr,
    Bool.not_true, Json.asStr, hp, hq, Bool.not_false, if_true]

/-- C4: the selection loop of get_live_url picks exactly the first entry,
in the sdk table's iteration order, whose mapped quality level equals the
strict maximum of all mapped levels (find? returns the first satisfying
entry, so ties keep the first-seen entry); the selected level is that
maximum; and under the sdk-table hypotheses get_live_url returns the urls
of the selected entry. -/
theorem quality_select_c4 (lm : List (String × Int))
    (sdkData : List (String × Json)) :
    ((selectBest lm sdkData).level = maxLevelFrom lm (-1) sdkData) ∧
    (∀ e, e ∈ sdkData → levelGet lm e.1 ≤ maxLevelFrom lm (-1) sdkData) ∧
    (-1 < maxLevelFrom lm (-1) sdkData →
      ∃ e, sdkData.find?
          (fun x => levelGet lm x.1 == maxLevelFrom lm (-1) sdkData) = some e ∧
        selectBest lm sdkData = pickEntry lm e) ∧
    (∀ parse data prefer_m3u8 s parsed,
      data.hasKey ("This account is private") = false →
      sdkDataStrOf data = .str s → s ≠ "" → parse s = some parsed →
      (qualitiesOf data).truthy = true →
      (!(bestOf parsed data).flv.truthy && !(bestOf parsed data).hls.truthy
        && statusIs data ("status_code") 4003110) = false →
      get_live_url parse data prefer_m3u8 =
        (if prefer_m3u8 && (bestOf parsed data).hls.truthy then
          .ok (bestOf parsed data).hls
        else if (bestOf parsed data).flv.truthy then .ok (bestOf parsed data).flv
        else .ok (bestOf parsed data).hls)) := by
  refine ⟨?_, ?_, ?_, ?_⟩
  · exact selectFold_level lm sdkData ⟨-1, .null, .null⟩
  · intro e he
    exact mem_le_maxLevelFrom lm e sdkData (-1) he
  · intro h
    exact selectFold_find lm sdkData ⟨-1, .null, .null⟩ h
  · intro parse data prefer_m3u8 s parsed hpriv hs hs2 hp hq hcond
    rw [get_live_url_sdk parse data prefer_m3u8 s parsed hpriv hs hs2 hp hq]
    simp [hcond]

/-- A level table with a tie at the maximum: keys b and c both map to
level 2. -/
def c4lm : List (String × Int) := [(("a"), 1), (("b"), 2), (("c"), 2)]

/-- Sdk table entries for the keys of c4lm, in iteration order. -/
def c4sd : List (String × Json) :=
  [(("a"), .obj []), (("b"), .obj []), (("c"), .obj [])]

/-- C4 witness: on the tied table the loop selects the entry of key b, the
first of the two entries with the maximal level 2. -/
theorem quality_select_c4_witness :
    selectBest c4lm c4sd = pickEntry c4lm ((("b"), Json.obj [])) := by
  obtain ⟨e, hfind, hsel⟩ := (quality_select_c4 c4lm c4sd).2.2.1 (by decide)
  have hfind2 : List.find?
      (fun x => levelGet c4lm x.1 == maxLevelFrom c4lm (-1) c4sd) c4sd =
      some ((("b"), Json.obj [])) := rfl
  rw [hfind2] at hfind
  injection hfind with he
  rw [he]
  exact hsel

/-- The room-info document of the C9 counterexample: the sdk stream data
string is present, the platform status code 4003110 is present, but the
quality table is empty. -/
def restrictedNoQualityDoc : Json :=
  .obj [(("data"), .obj [(("stream_url"), .obj [(("live_core_sdk_data"),
      .obj [(("pull_data"), .obj [(("stream_data"), .str ("sd"))])])])]),
    (("status_code"), .num 4003110)]

/-- C9 counterexample: a response that carries the platform status code
4003110 and from which no stream url can be resolved, yet get_live_url
returns None instead of raising the restriction error, because the quality
table is empty and the code returns before the restriction check; this
refutes the "exactly when" of the claim. -/
theorem live_restriction_c9_counterexample :
    get_live_url (fun _ => some (.obj [])) restrictedNoQualityDoc false =
      .ok .null ∧
    statusIs restrictedNoQualityDoc ("status_code") 4003110 = true ∧
    get_live_url (fun _ => some (.obj [])) restrictedNoQualityDoc false ≠
      .error (.userLiveError .liveRestriction) := by
  have h0 : get_live_url (fun _ => some (.obj [])) restrictedNoQualityDoc false =
      .ok .null := rfl
  refine ⟨h0, rfl, ?_⟩
  rw [h0]
  intro h
  exact Except.noConfusion h

/-- C9 amended: get_live_url raises the LIVE_RESTRICTION error exactly
when the sdk stream data is present and parses, the quality table is
non-empty (truthy), the quality-table selection yields no truthy flv or
hls url, and the response carries platform status code 4003110.  An empty
quality table returns None (a soft failure, permitting caller retry) even
when the status code is present, and whenever the restriction error is
raised the status code is present and the quality table was non-empty. -/
theorem live_restriction_c9_amended (parse : String → Option Json)
    (data : Json) (prefer_m3u8 : Bool) :
    (get_live_url parse data prefer_m3u8 =
        .error (.userLiveError .liveRestriction) →
      statusIs data ("status_code") 4003110 = true ∧
      (qualitiesOf data).truthy = true ∧ (sdkDataStrOf data).truthy = true) ∧
    (∀ s parsed, data.hasKey ("This account is private") = false →
      sdkDataStrOf data = .str s → s ≠ "" → parse s = some parsed →
      (qualitiesOf data).truthy = false →
      get_live_url parse data prefer_m3u8 = .ok .null) ∧
    (∀ s parsed, data.hasKey ("This account is private") = false →
      sdkDataStrOf data = .str s → s ≠ "" → parse s = some parsed →
      (qualitiesOf data).truthy = true →
      (get_live_url parse data prefer_m3u8 =
          .error (.userLiveError .liveRestriction) ↔
        (bestOf parsed data).flv.truthy = false ∧
        (bestOf parsed data).hls.truthy = false ∧
        statusIs data ("status_code") 4003110 = true)) := by
  refine ⟨?_, ?_, ?_⟩
  · intro h
    by_cases hpriv : data.hasKey ("This account is private") = true
    · simp [get_live_url, hpriv] at h
    · have hpriv2 : data.hasKey ("This account is private") = false := by
        simp only [Bool.not_eq_true] at hpriv
        exact hpriv
      by_cases hsdk : (sdkDataStrOf data).truthy = true
      · cases hp : parse (sdkDataStrOf data).asStr with
        | none => simp [get_live_url, hpriv2, hsdk, hp] at h
        | some parsed =>
          by_cases hq : (qualitiesOf data).truthy = true
          · by_cases hcond : (!(bestOf parsed data).flv.truthy &&
                !(bestOf parsed data).hls.truthy &&
                statusIs data ("status_code") 4003110) = true
            · refine ⟨?_, hq, hsdk⟩
              have h2 := hcond
              simp only [Bool.and_eq_true] at h2
              exact h2.2
            · exfalso
              simp only [Bool.not_eq_true] at hcond
              simp only [get_live_url, hpriv2, Bool.false_eq_true, if_false,
                hsdk, Bool.not_true, hp, hq, Bool.not_false, if_true,
                hcond] at h
              exact ok_chain_ne_error _ _ _ _ _ _ h
          · simp only [Bool.not_eq_true] at hq
            simp [get_live_url, hpriv2, hsdk, hp, hq] at h
      · simp only [Bool.not_eq_true] at hsdk
        by_cases hpref : prefer_m3u8 = true
        · by_cases hm : (legacyM3u8 (streamUrlOf data)).truthy = true
          · simp [get_live_url, hpriv2, hsdk, hpref, hm] at h
          · simp only [Bool.not_eq_true] at hm
            simp [get_live_url, hpriv2, hsdk, hpref, hm] at h
        · have hpref2 : prefer_m3u8 = false := by
            simp only [Bool.not_eq_true] at hpref
            exact hpref
          simp [get_live_url, hpriv2, hsdk, hpref2] at h
  · intro s parsed hpriv hs hs2 hp hq
    have hstr : (Json.str s).truthy = true := by
      simpa [Json.truthy] using hs2
    simp only [get_live_url, hpriv, Bool.false_eq_true, if_false, hs, hstr,
      Bool.not_true, Json.asStr, hp, hq, Bool.not_false, if_true]
  · intro s parsed hpriv hs hs2 hp hq
    rw [get_live_url_sdk parse data prefer_m3u8 s parsed hpriv hs hs2 hp hq]
    constructor
    · intro h
      by_cases hcond : (!(bestOf parsed data).flv.truthy &&
          !(bestOf parsed data).hls.truthy &&
          statusIs data ("status_code") 4003110) = true
      · have h2 := hcond
        simp only [Bool.and_eq_true, Bool.not_eq_true'] at h2
        exact ⟨h2.1.1, h2.1.2, h2.2⟩
      · exfalso
        simp only [Bool.not_eq_true] at hcond
        simp only [hcond, Bool.false_eq_true, if_false] at h
        exact ok_chain_ne_error _ _ _ _ _ _ h
    · intro h3
      have hcond : (!(bestOf parsed data).flv.truthy &&
          !(bestOf parsed data).hls.truthy &&
          statusIs data ("status_code") 4003110) = true := by
        simp [h3.1, h3.2.1, h3.2.2]
      simp only [hcond, if_true]

/-- C9 witness for the amended theorem: a document with a truthy quality
table, a selection with no urls and status code 4003110 raises the
restriction error. -/
def restrictedDoc : Json :=
  .obj [(("data"), .obj [(("stream_url"), .obj [(("live_core_sdk_data"),
      .obj [(("pull_data"), .obj [(("stream_data"), .str ("sd")),
        (("options"), .obj [(("qualities"),
          .arr [.obj [(("sdk_key"), .str ("hd")), (("level"), .num 1)]])])])])])]),
    (("status_code"), .num 4003110)]

theorem live_restriction_c9_amended_witness :
    get_live_url (fun _ => some (.obj [(("data"),
        .obj [(("hd"), .obj [])])])) restrictedDoc false =
      .error (.userLiveError .liveRestriction) := by
  have h := (live_restriction_c9_amended (fun _ => some (.obj [(("data"),
      .obj [(("hd"), .obj [])])])) restrictedDoc false).2.2
    ("sd") (.obj [(("data"), .obj [(("hd"), .obj [])])])
    rfl rfl (by simp) rfl rfl
  exact h.mpr ⟨rfl, rfl, rfl⟩

/-!
The recording loop of TikTokRecorder.start_recording
(src/core/tiktok_recorder.py lines 1024-1140) and its RecordingConfig
constants (lines 24-35).  Each iteration of the inner reconnect loop is
abstracted by the event describing its outcome; `recStep` is the effect of
one iteration on the reconnect counter and the stop flag, transcribed from
the try/except branches of the source.
-/

/-- RecordingConfig.BUFFER_SIZE = 512 * 1024 bytes. -/
def BUFFER_SIZE : Nat := 512 * 1024

/-- RecordingConfig.MAX_RECONNECT_ATTEMPTS = 5. -/
def MAX_RECONNECT_ATTEMPTS : Nat := 5

/-- The outcome of one iteration of the reconnect loop.  The boolean
`chunked` of an event records whether at least one chunk was transferred
into the buffer during the iteration; `fresh` whether _try_get_fresh_url
returned a new url; `alive` the result of the is_room_alive check inside
the ConnectionError handler. -/
inductive RecEvent where
  | aliveCheckNotLive
  | durationReached
  | streamEnd (chunked : Bool) (fresh : Bool)
  | connError (chunked : Bool) (fresh : Bool) (alive : Bool)
  | netError (chunked : Bool) (fresh : Bool)
  | keyboardInterrupt (chunked : Bool)
  | otherError (chunked : Bool)
deriving DecidableEq

/-- Whether the iteration included a successful chunk transfer (the
duration cap is only checked right after a chunk is appended, so that
event always did). -/
def chunkTransferred : RecEvent → Bool
  | .aliveCheckNotLive => false
  | .durationReached => true
  | .streamEnd c _ => c
  | .connError c _ _ => c
  | .netError c _ => c
  | .keyboardInterrupt c => c
  | .otherError c => c

/-- The state of the reconnect loop: the reconnect_attempts counter and
the stop_recording flag. -/
structure RecState where
  attempts : Nat
  stop : Bool
deriving DecidableEq

/-- One iteration of the reconnect loop of start_recording:
  - the periodic alive check failing, the duration cap, a keyboard
    interrupt, and a stream end without a fresh url all stop the session;
  - a stream end followed by a fresh url resets the counter to 0 (the only
    reset, line 1078 of the source);
  - every except branch increments the counter, stops at the maximum, and
    in the ConnectionError branch additionally stops when no fresh url was
    obtained and the room is no longer alive. -/
def recStep (s : RecState) (e : RecEvent) : RecState :=
  match e with
  | .aliveCheckNotLive => { s with stop := true }
  | .durationReached => { s with stop := true }
  | .streamEnd _ fresh =>
    if fresh then { s with attempts := 0 } else { s with stop := true }
  | .connError _ fresh alive =>
    let a := s.attempts + 1
    if a < MAX_RECONNECT_ATTEMPTS then
      if fresh then { attempts := a, stop := s.stop }
      else if !alive then { attempts := a, stop := true }
      else { attempts := a, stop := s.stop }
    else { attempts := a, stop := true }
  | .netError _ _ =>
    let a := s.attempts + 1
    if a < MAX_RECONNECT_ATTEMPTS then { attempts := a, stop := s.stop }
    else { attempts := a, stop := true }
  | .keyboardInterrupt _ => { s with stop := true }
  | .otherError _ =>
    let a := s.attempts + 1
    if a < MAX_RECONNECT_ATTEMPTS then { attempts := a, stop := s.stop }
    else { attempts := a, stop := true }

/-- C2 counterexample: an iteration that transfers chunks and then hits a
ConnectionError (even one followed by a successful fresh-url fetch) does
not reset the counter: from attempts = 1 the counter moves to 2, not 0,
although a successful chunk transfer happened.  The claimed reset after
any successful chunk transfer is therefore false. -/
theorem reconnect_counter_c2_counterexample :
    chunkTransferred (RecEvent.connError true true true) = true ∧
    (recStep ⟨1, false⟩ (RecEvent.connError true true true)).attempts = 2 ∧
    (recStep ⟨1, false⟩ (RecEvent.connError true true true)).attempts ≠ 0 := by
  refine ⟨rfl, rfl, ?_⟩
  intro h
  simp [recStep, MAX_RECONNECT_ATTEMPTS] at h

/-- C2 amended: the reconnect counter resets to 0 exactly on a successful
reconnect (a stream end followed by a fresh url, the only reset in the
source); any state whose counter reaches MAX_RECONNECT_ATTEMPTS = 5 has
the stop flag set, so five consecutive attempts without an intervening
successful reconnect stop the session; and one iteration never increases
the counter by more than one. -/
theorem reconnect_counter_c2_amended (s : RecState) (e : RecEvent) :
    (∀ c, e = RecEvent.streamEnd c true → (recStep s e).attempts = 0) ∧
    (MAX_RECONNECT_ATTEMPTS ≤ (recStep s e).attempts →
      (recStep s e).stop = true) ∧
    ((recStep s e).attempts ≤ s.attempts + 1) ∧
    ((recStep s e).attempts = 0 ∨ (recStep s e).attempts = s.attempts ∨
      (recStep s e).attempts = s.attempts + 1) := by
  refine ⟨?_, ?_, ?_, ?_⟩
  · intro c he
    subst he
    simp [recStep]
  · cases e with
    | aliveCheckNotLive =>
      intro h
      simp [recStep]
    | durationReached =>
      intro h
      simp [recStep]
    | streamEnd c fresh =>
      intro h
      by_cases hf : fresh = true
      · simp [recStep, hf, MAX_RECONNECT_ATTEMPTS] at h
      · simp [recStep, hf]
    | connError c fresh alive =>
      intro h
      simp only [recStep] at h ⊢
      by_cases h5 : s.attempts + 1 < MAX_RECONNECT_ATTEMPTS
      · by_cases hf : fresh = true
        · simp [h5, hf] at h ⊢
          omega
        · by_cases ha : alive = true
          · simp [h5, hf, ha] at h ⊢
            omega
          · simp [h5, hf, ha]
      · simp [h5]
    | netError c fresh =>
      intro h
      simp only [recStep] at h ⊢
      by_cases h5 : s.attempts + 1 < MAX_RECONNECT_ATTEMPTS
      · simp [h5] at h ⊢
        omega
      · simp [h5]
    | keyboardInterrupt c =>
      intro h
      simp [recStep]
    | otherError c =>
      intro h
      simp only [recStep] at h ⊢
      by_cases h5 : s.attempts + 1 < MAX_RECONNECT_ATTEMPTS
      · simp [h5] at h ⊢
        omega
      · simp [h5]
  · cases e with
    | aliveCheckNotLive => simp [recStep]
    | durationReached => simp [recStep]
    | streamEnd c fresh =>
      by_cases hf : fresh = true <;> simp [recStep, hf]
    | connError c fresh alive =>
      simp only [recStep]
      by_cases h5 : s.attempts + 1 < MAX_RECONNECT_ATTEMPTS
      · by_cases hf : fresh = true
        · simp [h5, hf]
        · by_cases ha : alive = true
          · simp [h5, hf, ha]
          · simp [h5, hf, ha]
      · simp [h5]
    | netError c fresh =>
      simp only [recStep]
      by_cases h5 : s.attempts + 1 < MAX_RECONNECT_ATTEMPTS <;> simp [h5]
    | keyboardInterrupt c => simp [recStep]
    | otherError c =>
      simp only [recStep]
      by_cases h5 : s.attempts + 1 < MAX_RECONNECT_ATTEMPTS <;> simp [h5]
  · cases e with
    | aliveCheckNotLive => simp [recStep]
    | durationReached => simp [recStep]
    | streamEnd c fresh =>
      by_cases hf : fresh = true <;> simp [recStep, hf]
    | connError c fresh alive =>
      simp only [recStep]
      by_cases h5 : s.attempts + 1 < MAX_RECONNECT_ATTEMPTS
      · by_cases hf : fresh = true
        · simp [h5, hf]
        · by_cases ha : alive = true
          · simp [h5, hf, ha]
          · simp [h5, hf, ha]
      · simp [h5]
    | netError c fresh =>
      simp only [recStep]
      by_cases h5 : s.attempts + 1 < MAX_RECONNECT_ATTEMPTS <;> simp [h5]
    | keyboardInterrupt c => simp [recStep]
    | otherError c =>
      simp only [recStep]
      by_cases h5 : s.attempts + 1 < MAX_RECONNECT_ATTEMPTS <;> simp [h5]

/-- C2 amended witness: a successful reconnect from attempts = 3 resets
the counter to 0, and a fifth consecutive error sets the stop flag. -/
theorem reconnect_counter_c2_amended_witness :
    (recStep ⟨3, false⟩ (RecEvent.streamEnd true true)).attempts = 0 ∧
    (recStep ⟨4, false⟩ (RecEvent.otherError false)).stop = true := by
  have h1 := (reconnect_counter_c2_amended ⟨3, false⟩
    (RecEvent.streamEnd true true)).1 true rfl
  have h2 := (reconnect_counter_c2_amended ⟨4, false⟩
    (RecEvent.otherError false)).2.1 (by decide)
  exact ⟨h1, h2⟩

/-!
The write buffer of the recording loop (TikTokRecorder._flush_buffer,
lines 946-954, and its call sites in start_recording).  The buffer is
tracked by its byte count and the output file by the ordered list of the
byte counts written to it.  `recvChunk` is one pass of the chunk loop
body (lines 1050-1055): append, then flush when the buffer has reached
BUFFER_SIZE.  A recording session is a sequence of stream batches; the
source flushes the buffer whenever a batch ends (stream end at line 1069
or an except handler at lines 1088, 1107, 1126) and once more before the
output file closes (line 1140). -/
structure BufState where
  buffer : Nat
  writes : List Nat
deriving DecidableEq

/-- TikTokRecorder._flush_buffer: write and clear a non-empty buffer,
leave an empty one untouched. -/
def flush_buffer (s : BufState) : BufState :=
  if s.buffer ≠ 0 then { buffer := 0, writes := s.writes ++ [s.buffer] } else s

/-- One chunk of the download loop: extend the buffer, then flush when
len(buffer) >= RecordingConfig.BUFFER_SIZE. -/
def recvChunk (s : BufState) (chunk : Nat) : BufState :=
  let s2 : BufState := { s with buffer := s.buffer + chunk }
  if BUFFER_SIZE ≤ s2.buffer then flush_buffer s2 else s2

/-- One stream batch: the chunk loop over the chunks the stream yielded. -/
def recordBatch (s : BufState) (chunks : List Nat) : BufState :=
  chunks.foldl recvChunk s

/-- A recording session: the batches in order, the buffer flushed at each
batch end, and the final flush at loop exit. -/
def recordSession (batches : List (List Nat)) : BufState :=
  flush_buffer (batches.foldl (fun s b => flush_buffer (recordBatch s b)) ⟨0, []⟩)

/-- C3 counterexample: a session of two stream batches of 300 KiB each
(the stream ended after the first and the loop reconnected) produces two
writes of 307200 bytes, both below the 512 KiB threshold and neither being
the loop-exit flush, refuting that flushes happen exactly at the threshold
plus once at loop exit. -/
theorem buffer_flush_c3_counterexample :
    recordSession [[307200], [307200]] = ⟨0, [307200, 307200]⟩ ∧
    307200 < BUFFER_SIZE := by
  exact ⟨rfl, by decide⟩

/-- C3 amended: within a chunk batch the buffer is flushed exactly when
the accumulated unflushed bytes reach or exceed BUFFER_SIZE = 512 KiB
(the flush writes the whole buffer and empties it, and a below-threshold
chunk changes nothing but the buffer); in addition the buffer is flushed,
whatever its size, at every batch end and once at loop exit, so a session
always ends with an empty buffer; and the claimed scenario holds: 300 KiB
then 300 KiB inside one batch yields no flush after the first chunk and
exactly one flush of 600 KiB after the second, leaving the buffer empty. -/
theorem buffer_flush_c3_amended (s : BufState) (chunk : Nat)
    (batches : List (List Nat)) :
    (BUFFER_SIZE ≤ s.buffer + chunk →
      recvChunk s chunk = ⟨0, s.writes ++ [s.buffer + chunk]⟩) ∧
    (s.buffer + chunk < BUFFER_SIZE →
      recvChunk s chunk = ⟨s.buffer + chunk, s.writes⟩) ∧
    ((recvChunk s chunk).writes ≠ s.writes ↔ BUFFER_SIZE ≤ s.buffer + chunk) ∧
    ((recordSession batches).buffer = 0) ∧
    (recordSession [[307200, 307200]] = ⟨0, [614400]⟩) := by
  refine ⟨?_, ?_, ?_, ?_, rfl⟩
  · intro h
    have hpos : s.buffer + chunk ≠ 0 := by
      have : 0 < BUFFER_SIZE := by decide
      omega
    simp [recvChunk, flush_buffer, h, hpos]
  · intro h
    simp [recvChunk, not_le.mpr h]
  · constructor
    · intro h
      by_contra hlt
      exact h (by simp [recvChunk, hlt])
    · intro h
      have hpos : s.buffer + chunk ≠ 0 := by
        have : 0 < BUFFER_SIZE := by decide
        omega
      simp [recvChunk, flush_buffer, h, hpos]
  · have hf0 : ∀ t : BufState, (flush_buffer t).buffer = 0 := by
      intro t
      by_cases ht : t.buffer = 0
      · simp [flush_buffer, ht]
      · simp [flush_buffer, ht]
    simp only [recordSession]
    exact hf0 _

/-- C3 amended witness: the scenario instance, extracted by applying the
amended theorem at the concrete inputs.  The first 300 KiB chunk only
grows the buffer; the second triggers the single 600 KiB flush. -/
theorem buffer_flush_c3_amended_witness :
    recvChunk ⟨0, []⟩ 307200 = ⟨307200, []⟩ ∧
    recvChunk ⟨307200, []⟩ 307200 = ⟨0, [614400]⟩ ∧
    recordSession [[307200, 307200]] = ⟨0, [614400]⟩ := by
  have h1 := (buffer_flush_c3_amended ⟨0, []⟩ 307200 []).2.1 (by decide)
  have h2 := (buffer_flush_c3_amended ⟨307200, []⟩ 307200 []).1 (by decide)
  have h3 := (buffer_flush_c3_amended ⟨0, []⟩ 0 [[307200, 307200]]).2.2.2.2
  exact ⟨by simpa using h1, by simpa using h2, h3⟩

/-!
Segmented (M3U8) download mode: TikTokAPI.download_m3u8_stream
(src/core/tiktok_api.py lines 684-783).  Each playlist poll yields a list
of segment urls; the loop keeps the set of already-seen urls
(downloaded_segments, modelled as a list with membership), adds a new url
to the set before downloading it, and skips urls already in the set.  The
second component of the state is the ordered list of urls whose download
was started. -/
def m3u8ProcessSegment (st : List String × List String) (url : String) :
    List String × List String :=
  if url ∈ st.1 then st else (url :: st.1, st.2 ++ [url])

/-- One playlist poll: process the parsed segment urls in order. -/
def m3u8Poll (st : List String × List String) (segs : List String) :
    List String × List String :=
  segs.foldl m3u8ProcessSegment st

/-- The urls downloaded during a whole session of playlist polls,
starting from an empty seen-set. -/
def download_m3u8_stream_downloads (polls : List (List String)) : List String :=
  (polls.foldl m3u8Poll ([], [])).2

/-- The session invariant: the download list has no duplicates and the
seen-set holds exactly the downloaded urls. -/
def m3u8Inv (st : List String × List String) : Prop :=
  st.2.Nodup ∧ ∀ u : String, u ∈ st.1 ↔ u ∈ st.2

theorem m3u8Poll_inv (segs : List String) :
    ∀ st : List String × List String, m3u8Inv st →
      m3u8Inv (m3u8Poll st segs) ∧
      (∀ u, u ∈ (m3u8Poll st segs).2 ↔ u ∈ st.2 ∨ u ∈ segs) := by
  induction segs with
  | nil =>
    intro st h
    exact ⟨h, by simp [m3u8Poll]⟩
  | cons url rest ih =>
    intro st h
    by_cases hmem : url ∈ st.1
    · have hstep : m3u8ProcessSegment st url = st := by
        simp [m3u8ProcessSegment, hmem]
      have hfold : m3u8Poll st (url :: rest) = m3u8Poll st rest := by
        simp only [m3u8Poll, List.foldl_cons, hstep]
      rw [hfold]
      refine ⟨(ih st h).1, ?_⟩
      intro u
      rw [(ih st h).2 u]
      constructor
      · rintro (hu | hu)
        · exact Or.inl hu
        · exact Or.inr (List.mem_cons_of_mem _ hu)
      · rintro (hu | hu)
        · exact Or.inl hu
        · rcases List.mem_cons.mp hu with hu2 | hu2
          · subst hu2
            exact Or.inl ((h.2 u).mp hmem)
          · exact Or.inr hu2
    · have hstep : m3u8ProcessSegment st url = (url :: st.1, st.2 ++ [url]) := by
        simp [m3u8ProcessSegment, hmem]
      have hnotdl : url ∉ st.2 := fun hu => hmem ((h.2 url).mpr hu)
      have hinv2 : m3u8Inv (url :: st.1, st.2 ++ [url]) := by
        constructor
        · exact h.1.append (List.nodup_singleton url)
            (fun a ha hb => hnotdl (by rwa [List.mem_singleton.mp hb] at ha))
        · intro u
          simp only [List.mem_cons, List.mem_append, List.mem_singleton]
          rw [h.2 u]
          tauto
      have hfold : m3u8Poll st (url :: rest) =
          m3u8Poll (url :: st.1, st.2 ++ [url]) rest := by
        simp only [m3u8Poll, List.foldl_cons, hstep]
      rw [hfold]
      refine ⟨(ih _ hinv2).1, ?_⟩
      intro u
      rw [(ih _ hinv2).2 u]
      simp only [List.mem_append, List.mem_singleton, List.mem_cons]
      tauto

theorem m3u8Fold_inv (polls : List (List String)) :
    ∀ st : List String × List String, m3u8Inv st →
      m3u8Inv (polls.foldl m3u8Poll st) ∧
      (∀ u, u ∈ (polls.foldl m3u8Poll st).2 ↔
        u ∈ st.2 ∨ ∃ p, p ∈ polls ∧ u ∈ p) := by
  induction polls with
  | nil =>
    intro st h
    exact ⟨h, by simp⟩
  | cons segs rest ih =>
    intro st h
    rw [List.foldl_cons]
    obtain ⟨h1, h2⟩ := m3u8Poll_inv segs st h
    obtain ⟨h3, h4⟩ := ih _ h1
    refine ⟨h3, ?_⟩
    intro u
    rw [h4 u, h2 u]
    simp only [List.mem_cons]
    constructor
    · rintro ((hu | hu) | ⟨p, hp, hup⟩)
      · exact Or.inl hu
      · exact Or.inr ⟨segs, Or.inl rfl, hu⟩
      · exact Or.inr ⟨p, Or.inr hp, hup⟩
    · rintro (hu | ⟨p, hp | hp, hup⟩)
      · exact Or.inl (Or.inl hu)
      · subst hp
        exact Or.inl (Or.inr hup)
      · exact Or.inr ⟨p, hp, hup⟩

/-- C7: within one session of download_m3u8_stream, no segment url is
downloaded twice: the list of started downloads has no duplicates, and a
url is downloaded (exactly once) precisely when some polled playlist
listed it. -/
theorem m3u8_dedup_c7 (polls : List (List String)) :
    (download_m3u8_stream_downloads polls).Nodup ∧
    (∀ u, u ∈ download_m3u8_stream_downloads polls ↔
      ∃ p, p ∈ polls ∧ u ∈ p) := by
  have h := m3u8Fold_inv polls ([], []) ⟨List.nodup_nil, by simp⟩
  refine ⟨h.1.1, ?_⟩
  intro u
  have h2 := h.2 u
  simp only [List.not_mem_nil, false_or] at h2
  simpa [download_m3u8_stream_downloads] using h2

/-- C7 witness: two polls sharing the segment b download it only once. -/
theorem m3u8_dedup_c7_witness :
    download_m3u8_stream_downloads [[("a"), ("b")], [("b"), ("c")]] =
      [("a"), ("b"), ("c")] ∧
    (download_m3u8_stream_downloads [[("a"), ("b")], [("b"), ("c")]]).Nodup := by
  exact ⟨rfl, (m3u8_dedup_c7 [[("a"), ("b")], [("b"), ("c")]]).1⟩

/-!
The monitoring scheduler wait: jitter_sleep
(src/core/tiktok_recorder.py lines 607-642) and the jitter constants of
RecordingConfig (lines 32-33).  Durations are rationals; the random
multiplier drawn by random.uniform(JITTER_MIN, JITTER_MAX) is a parameter
constrained in the theorems.  The sleep loop polls the force-recheck flag
every sleep_interval = 0.5 seconds; `force k` is the state of the flag at
poll k (elapsed = k * 0.5).  The loop runs for at most ceil(2 * jittered)
polls, which the fuel argument makes explicit. -/

/-- RecordingConfig.JITTER_MIN = 0.7. -/
def JITTER_MIN : ℚ := 7/10

/-- RecordingConfig.JITTER_MAX = 1.3. -/
def JITTER_MAX : ℚ := 13/10

/-- sleep_interval = 0.5 of jitter_sleep. -/
def sleepIntervalQ : ℚ := 1/2

/-- The polling loop of jitter_sleep: while elapsed < jittered, return
elapsed early when the flag is set at this poll, otherwise sleep one
interval; on normal completion return the jittered duration. -/
def sleepLoop (jittered : ℚ) (force : Nat → Bool) : Nat → Nat → ℚ
  | 0, k => (k : ℚ) * sleepIntervalQ
  | fuel + 1, k =>
    if (k : ℚ) * sleepIntervalQ < jittered then
      if force k then (k : ℚ) * sleepIntervalQ
      else sleepLoop jittered force fuel (k + 1)
    else jittered

/-- jitter_sleep: the jittered duration is base * mult; the loop starts at
elapsed = 0 with enough fuel to reach the loop exit. -/
def jitter_sleep (base_seconds : ℚ) (mult : ℚ) (force : Nat → Bool) : ℚ :=
  sleepLoop (base_seconds * mult) force (⌈2 * (base_seconds * mult)⌉₊ + 1) 0

theorem sleepLoop_no_force (j : ℚ) (force : Nat → Bool)
    (hf : ∀ i, force i = false) :
    ∀ fuel k, fuel + k = ⌈2 * j⌉₊ + 1 → 0 < fuel →
      sleepLoop j force fuel k = j := by
  intro fuel
  induction fuel with
  | zero =>
    intro k _ h0
    omega
  | succ f ih =>
    intro k hk h0
    simp only [sleepLoop]
    by_cases hlt : (k : ℚ) * sleepIntervalQ < j
    · rw [if_pos hlt]
      simp only [hf k, Bool.false_eq_true, if_false]
      rcases Nat.eq_zero_or_pos f with hf0 | hfpos
      · exfalso
        subst hf0
        have hk2 : k = ⌈2 * j⌉₊ := by omega
        have hle : 2 * j ≤ (⌈2 * j⌉₊ : ℚ) := Nat.le_ceil _
        rw [← hk2] at hle
        have h3 := hlt
        simp only [sleepIntervalQ] at h3
        linarith
      · exact ih (k + 1) (by omega) hfpos
    · rw [if_neg hlt]

theorem sleepLoop_force (j : ℚ) (force : Nat → Bool) (k0 : Nat)
    (hbefore : ∀ i, i < k0 → force i = false) (hk0 : force k0 = true)
    (hlt0 : (k0 : ℚ) * sleepIntervalQ < j) :
    ∀ fuel k, fuel + k = ⌈2 * j⌉₊ + 1 → 0 < fuel → k ≤ k0 →
      sleepLoop j force fuel k = (k0 : ℚ) * sleepIntervalQ := by
  intro fuel
  induction fuel with
  | zero =>
    intro k _ h0 _
    omega
  | succ f ih =>
    intro k hk h0 hkk0
    simp only [sleepLoop]
    have hlt : (k : ℚ) * sleepIntervalQ < j := by
      have hcast : (k : ℚ) ≤ (k0 : ℚ) := by exact_mod_cast hkk0
      have hpos : (0 : ℚ) ≤ sleepIntervalQ := by
        simp only [sleepIntervalQ]
        norm_num
      have hmono := mul_le_mul_of_nonneg_right hcast hpos
      linarith
    rw [if_pos hlt]
    by_cases heq : k = k0
    · subst heq
      simp [hk0]
    · have hklt : k < k0 := lt_of_le_of_ne hkk0 heq
      simp only [hbefore k hklt, Bool.false_eq_true, if_false]
      rcases Nat.eq_zero_or_pos f with hf0 | hfpos
      · exfalso
        subst hf0
        have hk2 : k = ⌈2 * j⌉₊ := by omega
        have hle : 2 * j ≤ (⌈2 * j⌉₊ : ℚ) := Nat.le_ceil _
        rw [← hk2] at hle
        have h3 := hlt
        simp only [sleepIntervalQ] at h3
        linarith
      · exact ih (k + 1) (by omega) hfpos (by omega)

/-- C8: the not-live wait of the scheduler.  The jitter constants are 0.7
and 1.3 and the poll interval is sub-second; with no force-recheck signal
the wait lasts exactly base * mult, which for a multiplier within
[JITTER_MIN, JITTER_MAX] and a non-negative base lies between 0.7 * base
and 1.3 * base; and when the force-recheck flag is first set at poll k0
before the wait has elapsed, the sleep returns early at elapsed
k0 * 0.5 seconds. -/
theorem jitter_sleep_c8 (base mult : ℚ) (force : Nat → Bool) :
    (JITTER_MIN = 7/10 ∧ JITTER_MAX = 13/10 ∧ sleepIntervalQ < 1) ∧
    ((∀ i, force i = false) → jitter_sleep base mult force = base * mult) ∧
    ((∀ i, force i = false) → 0 ≤ base → JITTER_MIN ≤ mult →
      mult ≤ JITTER_MAX →
      JITTER_MIN * base ≤ jitter_sleep base mult force ∧
      jitter_sleep base mult force ≤ JITTER_MAX * base) ∧
    (∀ k0, (∀ i, i < k0 → force i = false) → force k0 = true →
      (k0 : ℚ) * sleepIntervalQ < base * mult →
      jitter_sleep base mult force = (k0 : ℚ) * sleepIntervalQ ∧
      jitter_sleep base mult force < base * mult) := by
  refine ⟨⟨rfl, rfl, by simp only [sleepIntervalQ]; norm_num⟩, ?_, ?_, ?_⟩
  · intro hf
    exact sleepLoop_no_force (base * mult) force hf
      (⌈2 * (base * mult)⌉₊ + 1) 0 (by omega) (by omega)
  · intro hf hb hmin hmax
    have he : jitter_sleep base mult force = base * mult :=
      sleepLoop_no_force (base * mult) force hf
        (⌈2 * (base * mult)⌉₊ + 1) 0 (by omega) (by omega)
    rw [he]
    constructor
    · calc JITTER_MIN * base = base * JITTER_MIN := mul_comm _ _
        _ ≤ base * mult := mul_le_mul_of_nonneg_left hmin hb
    · calc base * mult ≤ base * JITTER_MAX := mul_le_mul_of_nonneg_left hmax hb
        _ = JITTER_MAX * base := mul_comm _ _
  · intro k0 hbefore hk0 hlt0
    have he : jitter_sleep base mult force = (k0 : ℚ) * sleepIntervalQ :=
      sleepLoop_force (base * mult) force k0 hbefore hk0 hlt0
        (⌈2 * (base * mult)⌉₊ + 1) 0 (by omega) (by omega) (by omega)
    exact ⟨he, by rw [he]; exact hlt0⟩

/-- C8 witness: a 10 second base with multiplier 1 and a force signal
first set at poll 4 returns after 2 seconds; with multiplier 0.7 and no
signal the wait is exactly 7 seconds. -/
theorem jitter_sleep_c8_witness :
    jitter_sleep 10 1 (fun i => decide (i = 4)) = 2 ∧
    jitter_sleep 10 (7/10) (fun _ => false) = 7 := by
  have h1 := ((jitter_sleep_c8 10 1 (fun i => decide (i = 4))).2.2.2 4
    (by decide) (by decide) (by simp only [sleepIntervalQ]; norm_num)).1
  have h2 := (jitter_sleep_c8 10 (7/10) (fun _ => false)).2.1 (fun i => rfl)
  constructor
  · rw [h1]
    simp only [sleepIntervalQ]
    norm_num
  · rw [h2]
    norm_num
